import Mathlib

/-!
Verification of AoikPickChar against its specification.

The repository's source under version control consists of the bootstrap
layer only: `src/aoikpickchar/__main__.py` (functions `run_setup_syspath`,
`check_deps`, `main`) and `src/aoikpickchar/main_init.py` (function
`setup_syspath`), plus packaging metadata.  The rendering core
(`aoikpickchar.main_inner` and the pick/render/compose pipeline) is not
present in the repository; where a property concerns it, the definitions
below are modelled from the spec and say so in their doc comments.

This file is a shallow embedding: Python functions become Lean functions,
the mutable interpreter state touched by `setup_syspath` (`sys.path` and
the `PYTHONPATH` environment variable) becomes an explicit state record,
and exceptional control flow becomes explicit outcome values.
-/

namespace AoikPickChar

/-! ## Model of `src/aoikpickchar/__main__.py`

A run of `main` is determined by what each of its fallible steps does:
whether `run_setup_syspath` raises, whether the `PIL` package is
importable (the only thing `check_deps` observes), whether the
`from aoikpickchar.main_inner import main_inner` statement raises, and
what the call `main_inner(args)` does (returns an exit code or raises).
Exceptions are modelled by the three classes `main` distinguishes:
`SystemExit`, `KeyboardInterrupt`, and everything else (any other
`BaseException`, identified by its type name). -/

/-- A Python exception, at the granularity `main` distinguishes. -/
inductive PyExc where
  | systemExit (code : Int)
  | keyboardInterrupt
  | other (name : String)
deriving DecidableEq, Repr

/-- How a call to `main` ends: it returns an exit code, or it propagates
an exception to its caller. -/
inductive MainOutcome where
  | returns (code : Int)
  | raises (e : PyExc)
deriving DecidableEq, Repr

/-- The observable result of a run of `main`: its outcome plus everything
written to the success stream (`sys.stdout`) and the error stream
(`sys.stderr`). -/
structure MainOutput where
  outcome : MainOutcome
  stdout : List String
  stderr : List String
deriving DecidableEq, Repr

/-- The error message built by `check_deps` when importing `PIL` fails
(`__main__.py` lines 81-84). -/
def pil_missing_msg : String :=
  "Error: Package `PIL` is not installed. Try:\npip install pillow\n"

/-- `check_deps` (`__main__.py` lines 65-90): tries to import `PIL`;
on `ImportError` returns the error message, otherwise returns `None`.
`pil_importable` says whether the import succeeds in this run. -/
def check_deps (pil_importable : Bool) : Option String :=
  if pil_importable then none else some pil_missing_msg

/-- The error message `main` writes for an exception caught by the
`except BaseException` handler: `'Traceback:\n---\n{0}---\n'.format(tb_msg)`
(`__main__.py` line 146), where `tb_msg` is `format_exc()`. -/
def traceback_msg (tb_msg : String) : String :=
  "Traceback:\n---\n" ++ tb_msg ++ "---\n"

/-- The three `except` clauses of `main` (`__main__.py` lines 130-152):
`SystemExit` is re-raised as-is, `KeyboardInterrupt` becomes exit code 0,
and any other exception becomes exit code -1 with the traceback message
written to `sys.stderr`. `tb_msg` models the string `format_exc()`
produces for the caught exception. -/
def handle_exc (e : PyExc) (tb_msg : String) : MainOutput :=
  match e with
  | .systemExit c => ⟨.raises (.systemExit c), [], []⟩
  | .keyboardInterrupt => ⟨.returns 0, [], []⟩
  | .other _ => ⟨.returns (-1), [], [traceback_msg tb_msg]⟩

/-- `main` (`__main__.py` lines 93-152).  The run is described by:
`setup_exc` - the exception `run_setup_syspath` raises, if any;
`pil_importable` - whether `import PIL` succeeds inside `check_deps`;
`import_exc` - the exception the import of `aoikpickchar.main_inner`
raises, if any; `inner` - the exit code returned by `main_inner(args)`
or the exception it raises; `tb_msg` - the `format_exc()` text for a
caught exception.  The body mirrors the source: the try block runs
`run_setup_syspath`, then `check_deps` (returning -100 with the message
on `sys.stderr` when a dependency is missing), then imports and calls
`main_inner`; the except clauses are `handle_exc`. -/
def main (setup_exc : Option PyExc) (pil_importable : Bool)
    (import_exc : Option PyExc) (inner : Except PyExc Int)
    (tb_msg : String) : MainOutput :=
  match setup_exc with
  | some e => handle_exc e tb_msg
  | none =>
    match check_deps pil_importable with
    | some msg => ⟨.returns (-100), [], [msg]⟩
    | none =>
      match import_exc with
      | some e => handle_exc e tb_msg
      | none =>
        match inner with
        | .ok code => ⟨.returns code, [], []⟩
        | .error e => handle_exc e tb_msg

end AoikPickChar

namespace AoikPickChar

/-! ## Model of `src/aoikpickchar/main_init.py`

`setup_syspath(package_root, current_dir=None)` mutates two pieces of
interpreter state: the list `sys.path` and the string environment
variable `PYTHONPATH`.  We model that state explicitly and the function
as a state transformer.  `os.path.abspath` is environment-dependent
(it depends on the current working directory), so the model takes it as
a function parameter `abspath`; `os.path.join(package_root,
'aoikpickchardep')` is modelled as appending `"/aoikpickchardep"`, and
`os.pathsep` as `':'` (the POSIX value).  The `assert os.path.isabs` /
`assert os.path.isdir` statements are runtime environment checks with no
effect on the state when they pass; runs in which they fail are runs in
which `setup_syspath` raises, which the `main` model covers through
`setup_exc`. -/

/-- Extends the first chunk of a split with one more character. -/
def consHead (c : Char) : List (List Char) → List (List Char)
  | [] => [[c]]
  | g :: gs => (c :: g) :: gs

/-- Python's `str.split(sep)` on the underlying character list:
`"".split(sep)` yields `[""]`, and a trailing separator yields a
trailing empty chunk. -/
def splitCharList (sep : Char) : List Char → List (List Char)
  | [] => [[]]
  | c :: cs =>
    if c = sep then [] :: splitCharList sep cs
    else consHead c (splitCharList sep cs)

/-- Python's `sep.join(...)` on underlying character lists. -/
def joinCharList (sep : Char) : List (List Char) → List Char
  | [] => []
  | [g] => g
  | g :: gs => g ++ sep :: joinCharList sep gs

/-- `pythonpath.split(os.pathsep)` at the `String` level. -/
def pySplit (s : String) : List String :=
  (splitCharList ':' s.data).map String.mk

/-- `os.pathsep.join(pythonpath_dir_s)` at the `String` level. -/
def pyJoin (l : List String) : String :=
  String.mk (joinCharList ':' (l.map String.data))

/-- The interpreter state `setup_syspath` mutates: `sys.path` and the
value of the `PYTHONPATH` environment variable (the empty string models
an unset variable, matching `os.environ.get('PYTHONPATH', '')`). -/
structure SysState where
  syspath : List String
  pythonpath : String
deriving DecidableEq, Repr

/-- The list `removing_dir_s` built in `main_init.py` lines 26-35:
`''`, `'.'`, and, when `current_dir` is given, its absolute path. -/
def removingDirs (abspath : String → String) (current_dir : Option String) :
    List String :=
  ["", "."] ++ (match current_dir with
    | none => []
    | some c => [abspath c])

/-- The removal loop of `main_init.py` lines 37-51: for each removing
path in order, delete every occurrence of it from the list. -/
def removePaths (removing : List String) (l : List String) : List String :=
  removing.foldl (fun acc r => acc.filter (fun p => p ≠ r)) l

/-- The dependency root: `os.path.abspath(os.path.join(package_root,
'aoikpickchardep'))` (`main_init.py` lines 67-71), where `package_root`
is already absolute. -/
def depRootOf (abspath : String → String) (package_root_abs : String) :
    String :=
  abspath (package_root_abs ++ "/aoikpickchardep")

/-- The prepend-if-absent step used for both `sys.path` and the
`PYTHONPATH` entry list (`main_init.py` lines 62-65, 79-82, 93-101). -/
def insertIfAbsent (x : String) (l : List String) : List String :=
  if x ∈ l then l else x :: l

/-- The new `sys.path`: remove `removing_dir_s`, then prepend the
absolute package root if absent, then prepend the dependency root if
absent (`main_init.py` lines 26-82). -/
def syspathAfter (abspath : String → String) (package_root : String)
    (current_dir : Option String) (sp : List String) : List String :=
  let cleaned := removePaths (removingDirs abspath current_dir) sp
  let pr := abspath package_root
  let dep := depRootOf abspath pr
  insertIfAbsent dep (insertIfAbsent pr cleaned)

/-- The new `PYTHONPATH` entry list before joining: split the old value
on `os.pathsep`, normalize each entry with `abspath`, then prepend the
package root if absent and the dependency root if absent
(`main_init.py` lines 84-101). -/
def pythonpathDirsAfter (abspath : String → String) (package_root : String)
    (pp : String) : List String :=
  let pr := abspath package_root
  let dep := depRootOf abspath pr
  let dirs := (pySplit pp).map abspath
  insertIfAbsent dep (insertIfAbsent pr dirs)

/-- `setup_syspath` (`main_init.py` lines 13-107) as a state
transformer on `SysState`. -/
def setup_syspath (abspath : String → String) (package_root : String)
    (current_dir : Option String) (st : SysState) : SysState :=
  ⟨syspathAfter abspath package_root current_dir st.syspath,
    pyJoin (pythonpathDirsAfter abspath package_root st.pythonpath)⟩

/-! ## Model of the rendering core, absent from the repository

The module `aoikpickchar.main_inner` and the whole pick/render/compose
pipeline are not in the repository (only the bootstrap layer is), so the
definitions below are modelled from the spec, as their doc comments
say. -/

/-- Modelled from the spec: `RenderStyle` (spec section 3).  Colors are
numeric values; the font path is irrelevant to the properties proved
here and omitted. -/
structure RenderStyle where
  font_size_px : Nat
  fill_color : Nat
  background_color : Nat
  rotation_degrees : Int
  offset_x : Int
  offset_y : Int
  padding_px : Nat
deriving DecidableEq, Repr

/-- Modelled from the spec: `PickRequest` (spec section 3) plus the
explicit with-replacement mode of section 4.2. -/
structure PickRequest where
  pool : List Char
  count : Nat
  seed : Option Nat
  with_replacement : Bool
deriving DecidableEq, Repr

/-- Modelled from the spec: the Character Picker error taxonomy
(spec sections 4.1, 4.2, 7). -/
inductive PickError where
  | invalidPool
  | insufficientPool
deriving DecidableEq, Repr

/-- Modelled from the spec: a reference deterministic entropy algorithm
for seeded draws (spec section 4.2 leaves the exact algorithm open but
requires full determinism from the seed); a linear congruential step,
truncated to 31 bits. -/
def lcg_next (s : Nat) : Nat := (1103515245 * s + 12345) % 2 ^ 31

/-- The seeded entropy stream: the value consumed by draw `i`. -/
def lcg_stream (seed : Nat) : Nat → Nat
  | 0 => lcg_next seed
  | n + 1 => lcg_next (lcg_stream seed n)

/-- Removes the element at index `i` from the pool (a draw without
replacement consumes its pick). -/
def remove_at (l : List Char) (i : Nat) : List Char :=
  l.take i ++ l.drop (i + 1)

/-- Modelled from the spec: the draw loop of the Character Picker
(spec section 4.2).  Draw `k` consumes entropy value `rand k`, reduced
modulo the current pool size to an index; without replacement the
picked character leaves the pool. -/
def draw_chars (with_replacement : Bool) :
    (Nat → Nat) → List Char → Nat → List Char
  | _, _, 0 => []
  | rand, pool, count + 1 =>
    let i := rand 0 % pool.length
    let c := pool.getD i 'A'
    c :: draw_chars with_replacement (fun k => rand (k + 1))
      (if with_replacement then pool else remove_at pool i) count

/-- Modelled from the spec: the Character Picker (spec section 4.2).
Fails with `invalidPool` on an empty pool (section 4.1 invariant) and
with `insufficientPool` when `count` exceeds the pool size and
replacement is disallowed.  When `seed` is given the draws use the
deterministic seeded stream; otherwise they use the non-deterministic
entropy source `entropy`. -/
def pick_chars (req : PickRequest) (entropy : Nat → Nat) :
    Except PickError (List Char) :=
  if req.pool = [] then .error .invalidPool
  else if req.with_replacement = false ∧ req.pool.length < req.count then
    .error .insufficientPool
  else
    let rand := match req.seed with
      | some s => lcg_stream s
      | none => entropy
    .ok (draw_chars req.with_replacement rand req.pool req.count)

/-- Modelled from the spec: the Glyph Renderer (spec section 4.4) is a
pure function of (character, style): a padded square canvas whose
pixels are determined by the character code and the style.  The numeric
pixel formula stands in for the absent rasterizer; what matters for the
properties proved here is that it is deterministic. -/
def render_glyph (c : Char) (style : RenderStyle) : List (List Nat) :=
  let side := style.font_size_px + 2 * style.padding_px
  (List.range side).map (fun y =>
    (List.range side).map (fun x =>
      if style.padding_px ≤ x ∧ x < style.padding_px + style.font_size_px
          ∧ style.padding_px ≤ y ∧ y < style.padding_px + style.font_size_px
      then (c.toNat + style.fill_color + x * y) % 256
      else style.background_color % 256))

/-- Modelled from the spec: the final image bytes for a picked character
sequence under a style (Glyph Renderer then Image Composer, spec
sections 4.4-4.5): glyph canvases concatenated in pick order.
Deterministic: identical character sequence and style always yields a
byte-identical composition. -/
def compose_image (chars : List Char) (style : RenderStyle) :
    List (List Nat) :=
  (chars.map (fun c => render_glyph c style)).foldr (· ++ ·) []

/-- Modelled from the spec: a rendered glyph as the Image Composer sees
it - the source character plus its canvas dimensions (spec section 3,
`RenderedGlyph`; the pixel buffer itself is irrelevant to the layout
properties proved here). -/
structure RenderedGlyph where
  char : Char
  width : Nat
  height : Nat
deriving DecidableEq, Repr

/-- Modelled from the spec: the layout modes of the Image Composer
(spec section 4.5). -/
inductive LayoutMode where
  | single
  | horizontal_strip
  | grid (columns : Nat)
deriving DecidableEq, Repr

/-- Modelled from the spec: the Image Composer error (spec section
4.5). -/
inductive ComposeError where
  | emptyBatch
deriving DecidableEq, Repr

/-- Modelled from the spec: `ComposedImage` (spec section 3): the cell
grid, the ordered characters depicted, and the overall dimensions. -/
structure ComposedImage where
  rows : List (List RenderedGlyph)
  characters : List Char
  width : Nat
  height : Nat
deriving DecidableEq, Repr

/-- Splits the glyph sequence into grid rows of `columns` cells,
left-to-right, top-to-bottom in pick order (spec section 4.5). -/
def chunk_rows (columns : Nat) (l : List RenderedGlyph) :
    List (List RenderedGlyph) :=
  if h : columns = 0 ∨ l = [] then []
  else l.take columns :: chunk_rows columns (l.drop columns)
termination_by l.length
decreasing_by
  simp only [List.length_drop]
  have h1 : ¬columns = 0 := fun hc => h (Or.inl hc)
  have h2 : ¬l = [] := fun hl => h (Or.inr hl)
  have h3 : 0 < l.length := List.length_pos.mpr h2
  omega

/-- The uniform cell width: the maximum glyph canvas width in the batch
(spec section 4.5). -/
def cell_width (glyphs : List RenderedGlyph) : Nat :=
  (glyphs.map RenderedGlyph.width).foldr max 0

/-- The uniform cell height: the maximum glyph canvas height in the
batch (spec section 4.5). -/
def cell_height (glyphs : List RenderedGlyph) : Nat :=
  (glyphs.map RenderedGlyph.height).foldr max 0

/-- The cell rows for each layout mode: one row for `single` and
`horizontal-strip`, chunked rows for `grid` (spec section 4.5). -/
def layout_rows (mode : LayoutMode) (glyphs : List RenderedGlyph) :
    List (List RenderedGlyph) :=
  match mode with
  | .single => [glyphs]
  | .horizontal_strip => [glyphs]
  | .grid columns => chunk_rows columns glyphs

/-- Modelled from the spec: the Image Composer (spec section 4.5).
Fails with `EmptyBatchError` on zero glyphs; otherwise lays the glyphs
out in uniform cells with inter-cell spacing `padding_px`. -/
def compose_glyphs (glyphs : List RenderedGlyph) (mode : LayoutMode)
    (padding_px : Nat) : Except ComposeError ComposedImage :=
  if glyphs = [] then .error .emptyBatch
  else
    let rows := layout_rows mode glyphs
    let ncols := (rows.map List.length).foldr max 0
    .ok ⟨rows, glyphs.map RenderedGlyph.char,
      ncols * cell_width glyphs + (ncols - 1) * padding_px,
      rows.length * cell_height glyphs
        + (rows.length - 1) * padding_px⟩

end AoikPickChar

namespace AoikPickChar

/-! ### Helper lemmas about the list operations -/

theorem mem_insertIfAbsent_self (x : String) (l : List String) :
    x ∈ insertIfAbsent x l := by
  unfold insertIfAbsent
  split
  · assumption
  · exact List.mem_cons_self x l

theorem mem_insertIfAbsent_of_mem (x y : String) (l : List String)
    (h : y ∈ l) : y ∈ insertIfAbsent x l := by
  unfold insertIfAbsent
  split
  · exact h
  · exact List.mem_cons_of_mem x h

theorem insertIfAbsent_of_mem (x : String) (l : List String) (h : x ∈ l) :
    insertIfAbsent x l = l := by
  unfold insertIfAbsent
  simp [h]

theorem insertIfAbsent_ne_nil (x : String) (l : List String) :
    insertIfAbsent x l ≠ [] := by
  unfold insertIfAbsent
  split
  · intro hnil
    subst hnil
    simp at *
  · simp

theorem mem_of_mem_insertIfAbsent (x y : String) (l : List String)
    (h : y ∈ insertIfAbsent x l) : y = x ∨ y ∈ l := by
  unfold insertIfAbsent at h
  by_cases hx : x ∈ l
  · simp [hx] at h
    exact Or.inr h
  · simp [hx] at h
    exact h

theorem mem_of_mem_removePaths (removing : List String) (l : List String)
    (q : String) (h : q ∈ removePaths removing l) : q ∈ l := by
  induction removing generalizing l with
  | nil => exact h
  | cons r rest ih =>
    have h2 : q ∈ (l.filter (fun p => p ≠ r)) := ih _ h
    exact List.mem_of_mem_filter h2

theorem not_mem_removePaths (removing : List String) (l : List String)
    (q : String) (hq : q ∈ removing) : q ∉ removePaths removing l := by
  induction removing generalizing l with
  | nil => simp at hq
  | cons r rest ih =>
    intro hmem
    rcases List.mem_cons.mp hq with hqr | hqrest
    · subst hqr
      have h2 : q ∈ l.filter (fun p => p ≠ q) :=
        mem_of_mem_removePaths rest _ q hmem
      have := List.of_mem_filter h2
      simp at this
    · exact ih _ hqrest hmem

theorem removePaths_eq_self (removing : List String) (l : List String)
    (h : ∀ q ∈ l, q ∉ removing) : removePaths removing l = l := by
  induction removing generalizing l with
  | nil => rfl
  | cons r rest ih =>
    unfold removePaths
    simp only [List.foldl_cons]
    have hfil : l.filter (fun p => p ≠ r) = l := by
      apply List.filter_eq_self.mpr
      intro a ha
      have := h a ha
      simp only [List.mem_cons] at this
      simp only [ne_eq, decide_eq_true_eq]
      intro heq
      exact this (Or.inl heq)
    rw [hfil]
    exact ih l (fun q hq hmem => h q hq (List.mem_cons_of_mem r hmem))

/-! ### Round-trip of `pySplit` and `pyJoin` on separator-free entries -/

theorem splitCharList_sep_free (sep : Char) (g : List Char)
    (hg : sep ∉ g) : splitCharList sep g = [g] := by
  induction g with
  | nil => rfl
  | cons c cs ih =>
    have hc : c ≠ sep := fun h => hg (h ▸ List.mem_cons_self c cs)
    have hcs : sep ∉ cs := fun h => hg (List.mem_cons_of_mem c h)
    simp only [splitCharList, if_neg hc, ih hcs, consHead]

theorem splitCharList_append_sep (sep : Char) (g t : List Char)
    (hg : sep ∉ g) :
    splitCharList sep (g ++ sep :: t) = g :: splitCharList sep t := by
  induction g with
  | nil =>
    show splitCharList sep (sep :: t) = [] :: splitCharList sep t
    simp [splitCharList]
  | cons c cs ih =>
    have hc : c ≠ sep := fun h => hg (h ▸ List.mem_cons_self c cs)
    have hcs : sep ∉ cs := fun h => hg (List.mem_cons_of_mem c h)
    show splitCharList sep (c :: (cs ++ sep :: t)) = _
    simp only [splitCharList, if_neg hc, ih hcs, consHead]

theorem splitCharList_joinCharList (sep : Char) (l : List (List Char))
    (hne : l ≠ []) (hfree : ∀ g ∈ l, sep ∉ g) :
    splitCharList sep (joinCharList sep l) = l := by
  induction l with
  | nil => exact absurd rfl hne
  | cons g gs ih =>
    cases gs with
    | nil =>
      show splitCharList sep (joinCharList sep [g]) = [g]
      unfold joinCharList
      exact splitCharList_sep_free sep g (hfree g (List.mem_cons_self g []))
    | cons g2 gs2 =>
      show splitCharList sep (g ++ sep :: joinCharList sep (g2 :: gs2)) = _
      rw [splitCharList_append_sep sep g _
        (hfree g (List.mem_cons_self g _))]
      rw [ih (by simp)
        (fun x hx => hfree x (List.mem_cons_of_mem g hx))]

theorem mk_data_eq (s : String) : String.mk s.data = s := rfl

theorem pySplit_pyJoin (l : List String) (hne : l ≠ [])
    (hfree : ∀ p ∈ l, ':' ∉ p.data) :
    pySplit (pyJoin l) = l := by
  unfold pySplit pyJoin
  have hdata : (String.mk (joinCharList ':' (l.map String.data))).data
      = joinCharList ':' (l.map String.data) := rfl
  rw [hdata]
  rw [splitCharList_joinCharList ':' (l.map String.data)
    (by simpa using hne)
    (by
      intro g hg
      rcases List.mem_map.mp hg with ⟨p, hp, hpg⟩
      exact hpg ▸ hfree p hp)]
  rw [List.map_map]
  have : (String.mk ∘ String.data) = fun s : String => s := by
    funext s
    exact mk_data_eq s
  rw [this, List.map_id']

theorem map_eq_self_of (f : String → String) (l : List String)
    (h : ∀ x ∈ l, f x = x) : l.map f = l := by
  induction l with
  | nil => rfl
  | cons a rest ih =>
    simp only [List.map_cons, h a (List.mem_cons_self a rest)]
    rw [ih (fun x hx => h x (List.mem_cons_of_mem a hx))]

theorem mem_removePaths_not_removed (removing : List String)
    (l : List String) (q : String) (h : q ∈ removePaths removing l) :
    q ∉ removing :=
  fun hr => not_mem_removePaths removing l q hr h

theorem mem_take_two_insertIfAbsent (x y : String) (l : List String) :
    y ∈ (insertIfAbsent x (y :: l)).take 2 := by
  unfold insertIfAbsent
  split
  · cases l with
    | nil => simp
    | cons b rest => simp
  · simp

theorem insertIfAbsent_of_not_mem (x : String) (l : List String)
    (h : x ∉ l) : insertIfAbsent x l = x :: l := by
  unfold insertIfAbsent
  simp [h]

theorem head_insertIfAbsent_insertIfAbsent (x y : String) (l : List String)
    (hx : x ∉ l) :
    (insertIfAbsent x (insertIfAbsent y l)).head? = some x := by
  by_cases hxy : x = y
  · subst hxy
    rw [insertIfAbsent_of_not_mem x l hx,
      insertIfAbsent_of_mem x _ (List.mem_cons_self x l)]
    rfl
  · have hx2 : x ∉ insertIfAbsent y l := by
      intro hmem
      rcases mem_of_mem_insertIfAbsent y x l hmem with h | h
      · exact hxy h
      · exact hx h
    rw [insertIfAbsent_of_not_mem x _ hx2]
    rfl

end AoikPickChar

namespace AoikPickChar

/-- C1 counterexample: a run in which `PIL` cannot be imported but
`run_setup_syspath` raises first (for example an `AssertionError` from
its directory-existence assertions) returns -1, not -100, and never
writes the dependency error message. -/
theorem main_missing_dep_counterexample :
    (main (some (.other "AssertionError")) false none (.ok 0) "tb").outcome
        = .returns (-1)
      ∧ pil_missing_msg ∉
        (main (some (.other "AssertionError")) false none (.ok 0) "tb").stderr := by
  constructor
  · rfl
  · decide

/-- C1 (amended): in every run in which `run_setup_syspath` completes
without raising and `PIL` cannot be imported, `main` writes the
human-readable dependency error message to the error stream and returns
-100, a code distinct from the unhandled-failure code -1, without
consulting the core pipeline (the result is the same for every
`import_exc` and `inner`). -/
theorem main_missing_dep (import_exc : Option PyExc)
    (inner : Except PyExc Int) (tb_msg : String) :
    main none false import_exc inner tb_msg
        = ⟨.returns (-100), [], [pil_missing_msg]⟩
      ∧ ((-100 : Int) ≠ -1) := by
  exact ⟨rfl, by decide⟩

/-- C2: for every exception other than `SystemExit` and
`KeyboardInterrupt` (modelled by `PyExc.other name`), wherever it is
raised during the run - in `run_setup_syspath`, in the import of
`aoikpickchar.main_inner`, or inside `main_inner` - `main` returns -1
(distinct from the missing-dependency code -100) and writes the
diagnostic traceback to the error stream, with nothing on the success
stream. -/
theorem main_unhandled_exc (name tb_msg : String) (pil_importable : Bool)
    (import_exc : Option PyExc) (inner inner2 : Except PyExc Int) :
    main (some (.other name)) pil_importable import_exc inner tb_msg
        = ⟨.returns (-1), [], [traceback_msg tb_msg]⟩
      ∧ main none true (some (.other name)) inner2 tb_msg
        = ⟨.returns (-1), [], [traceback_msg tb_msg]⟩
      ∧ main none true none (.error (.other name)) tb_msg
        = ⟨.returns (-1), [], [traceback_msg tb_msg]⟩
      ∧ ((-1 : Int) ≠ -100) := by
  refine ⟨rfl, rfl, rfl, by decide⟩

/-- C3: a `KeyboardInterrupt` raised at any of the fallible points
inside `main`'s try block - in `run_setup_syspath`, in the import of
`aoikpickchar.main_inner`, or inside `main_inner` - makes `main` return
exit code 0. -/
theorem main_keyboard_interrupt (tb_msg : String) (pil_importable : Bool)
    (import_exc : Option PyExc) (inner inner2 : Except PyExc Int) :
    (main (some .keyboardInterrupt) pil_importable import_exc inner
        tb_msg).outcome = .returns 0
      ∧ (main none true (some .keyboardInterrupt) inner2 tb_msg).outcome
        = .returns 0
      ∧ (main none true none (.error .keyboardInterrupt) tb_msg).outcome
        = .returns 0 := by
  refine ⟨rfl, rfl, rfl⟩

/-- C10: `main` never propagates any exception other than `SystemExit`
to its caller - whenever a run's outcome is a propagated exception, that
exception is a `SystemExit`; and a `SystemExit` raised at any fallible
point is re-raised as-is, carrying the same code. -/
theorem main_no_exc_propagation (setup_exc : Option PyExc)
    (pil_importable : Bool) (import_exc : Option PyExc)
    (inner : Except PyExc Int) (tb_msg : String) :
    (∀ e, (main setup_exc pil_importable import_exc inner tb_msg).outcome
        = .raises e → ∃ c, e = PyExc.systemExit c)
      ∧ (∀ c inner2,
          (main (some (.systemExit c)) pil_importable import_exc inner2
            tb_msg).outcome = .raises (.systemExit c)
          ∧ (main none true (some (.systemExit c)) inner2 tb_msg).outcome
            = .raises (.systemExit c)
          ∧ (main none true none (.error (.systemExit c)) tb_msg).outcome
            = .raises (.systemExit c)) := by
  constructor
  · intro e he
    cases setup_exc with
    | some ex =>
      cases ex with
      | systemExit c =>
        exact ⟨c, by simpa [main, handle_exc] using he.symm⟩
      | keyboardInterrupt => simp [main, handle_exc] at he
      | other n => simp [main, handle_exc] at he
    | none =>
      cases pil_importable with
      | false => simp [main, check_deps] at he
      | true =>
        cases import_exc with
        | some ex =>
          cases ex with
          | systemExit c =>
            exact ⟨c, by simpa [main, check_deps, handle_exc] using he.symm⟩
          | keyboardInterrupt => simp [main, check_deps, handle_exc] at he
          | other n => simp [main, check_deps, handle_exc] at he
        | none =>
          cases inner with
          | ok code => simp [main, check_deps] at he
          | error ex =>
            cases ex with
            | systemExit c =>
              exact ⟨c, by simpa [main, check_deps, handle_exc] using he.symm⟩
            | keyboardInterrupt => simp [main, check_deps, handle_exc] at he
            | other n => simp [main, check_deps, handle_exc] at he
  · intro c inner2
    exact ⟨rfl, rfl, rfl⟩

/-- Witness for C10 at a concrete run: the run whose `run_setup_syspath`
raises `SystemExit 5` has outcome `raises (systemExit 5)`, and the
theorem's first part applies to it. -/
theorem main_no_exc_propagation_witness :
    ∃ c, PyExc.systemExit 5 = PyExc.systemExit c :=
  (main_no_exc_propagation (some (.systemExit 5)) true none (.ok 0) "t").1
    (.systemExit 5) rfl

/-- C4: after `setup_syspath(package_root, current_dir)` returns, the
absolute package root path and the absolute path of its
`aoikpickchardep` subdirectory are both present in `sys.path` and among
the entries of the `PYTHONPATH` environment variable; and each was
prepended when it was not already present (it then sits within the
first two entries, the dependency root at the very front when it was
absent, since it is prepended last).  The hypothesis says the resulting
entry list is free of the path separator, so that joining it into the
environment variable and splitting it again recovers the entries. -/
theorem setup_syspath_adds_roots (abspath : String → String)
    (package_root : String) (current_dir : Option String) (st : SysState)
    (hfree : ∀ p ∈ pythonpathDirsAfter abspath package_root st.pythonpath,
      ':' ∉ p.data) :
    abspath package_root
        ∈ (setup_syspath abspath package_root current_dir st).syspath
      ∧ depRootOf abspath (abspath package_root)
        ∈ (setup_syspath abspath package_root current_dir st).syspath
      ∧ abspath package_root
        ∈ pySplit (setup_syspath abspath package_root current_dir st).pythonpath
      ∧ depRootOf abspath (abspath package_root)
        ∈ pySplit (setup_syspath abspath package_root current_dir st).pythonpath
      ∧ (abspath package_root ∉ st.syspath →
          abspath package_root
            ∈ (setup_syspath abspath package_root current_dir st).syspath.take 2)
      ∧ (depRootOf abspath (abspath package_root) ∉ st.syspath →
          (setup_syspath abspath package_root current_dir st).syspath.head?
            = some (depRootOf abspath (abspath package_root)))
      ∧ (abspath package_root ∉ (pySplit st.pythonpath).map abspath →
          abspath package_root
            ∈ (pySplit
                (setup_syspath abspath package_root current_dir st).pythonpath).take 2)
      ∧ (depRootOf abspath (abspath package_root)
            ∉ (pySplit st.pythonpath).map abspath →
          (pySplit
              (setup_syspath abspath package_root current_dir st).pythonpath).head?
            = some (depRootOf abspath (abspath package_root))) := by
  have hsys : (setup_syspath abspath package_root current_dir st).syspath
      = insertIfAbsent (depRootOf abspath (abspath package_root))
          (insertIfAbsent (abspath package_root)
            (removePaths (removingDirs abspath current_dir) st.syspath)) := rfl
  have hpys : pySplit (setup_syspath abspath package_root current_dir st).pythonpath
      = pythonpathDirsAfter abspath package_root st.pythonpath :=
    pySplit_pyJoin _ (insertIfAbsent_ne_nil _ _) hfree
  have hdirs : pythonpathDirsAfter abspath package_root st.pythonpath
      = insertIfAbsent (depRootOf abspath (abspath package_root))
          (insertIfAbsent (abspath package_root)
            ((pySplit st.pythonpath).map abspath)) := rfl
  refine ⟨?_, ?_, ?_, ?_, ?_, ?_, ?_, ?_⟩
  · rw [hsys]
    exact mem_insertIfAbsent_of_mem _ _ _ (mem_insertIfAbsent_self _ _)
  · rw [hsys]
    exact mem_insertIfAbsent_self _ _
  · rw [hpys, hdirs]
    exact mem_insertIfAbsent_of_mem _ _ _ (mem_insertIfAbsent_self _ _)
  · rw [hpys, hdirs]
    exact mem_insertIfAbsent_self _ _
  · intro h
    rw [hsys]
    have hnc : abspath package_root
        ∉ removePaths (removingDirs abspath current_dir) st.syspath :=
      fun hm => h (mem_of_mem_removePaths _ _ _ hm)
    rw [insertIfAbsent_of_not_mem _ _ hnc]
    exact mem_take_two_insertIfAbsent _ _ _
  · intro h
    rw [hsys]
    exact head_insertIfAbsent_insertIfAbsent _ _ _
      (fun hm => h (mem_of_mem_removePaths _ _ _ hm))
  · intro h
    rw [hpys, hdirs]
    rw [insertIfAbsent_of_not_mem _ _ h]
    exact mem_take_two_insertIfAbsent _ _ _
  · intro h
    rw [hpys, hdirs]
    exact head_insertIfAbsent_insertIfAbsent _ _ _ h

/-- Witness for C4 at a concrete state: the absolute package root is in
the new `sys.path` after a run on the state with `sys.path = ["", "x"]`
and `PYTHONPATH = "y"`. -/
theorem setup_syspath_adds_roots_witness :
    "/r" ∈ (setup_syspath (fun s => s) "/r" (some "/c")
      ⟨["", "x"], "y"⟩).syspath :=
  (setup_syspath_adds_roots (fun s => s) "/r" (some "/c")
    ⟨["", "x"], "y"⟩ (by decide)).1

/-- C8: every path in the removal list - the empty string, `'.'`, and,
when `current_dir` is given, its absolute path - that is still present
in `sys.path` after `setup_syspath` returns must coincide with the
package root or the dependency root that the function re-added; all
other occurrences were removed. -/
theorem setup_syspath_removes_paths (abspath : String → String)
    (package_root : String) (current_dir : Option String) (st : SysState)
    (p : String) (hp : p ∈ removingDirs abspath current_dir)
    (hmem : p ∈ (setup_syspath abspath package_root current_dir st).syspath) :
    p = abspath package_root
      ∨ p = depRootOf abspath (abspath package_root) := by
  have hsys : (setup_syspath abspath package_root current_dir st).syspath
      = insertIfAbsent (depRootOf abspath (abspath package_root))
          (insertIfAbsent (abspath package_root)
            (removePaths (removingDirs abspath current_dir) st.syspath)) := rfl
  rw [hsys] at hmem
  rcases mem_of_mem_insertIfAbsent _ _ _ hmem with h | h2
  · exact Or.inr h
  rcases mem_of_mem_insertIfAbsent _ _ _ h2 with h | h3
  · exact Or.inl h
  exact absurd h3 (not_mem_removePaths _ _ _ hp)

/-- Witness for C8 at a concrete state: with `current_dir` equal to the
package root itself, the root survives in the new `sys.path` and is
indeed the re-added package root. -/
theorem setup_syspath_removes_paths_witness :
    "/r" = (fun s : String => s) "/r"
      ∨ "/r" = depRootOf (fun s => s) ((fun s : String => s) "/r") :=
  setup_syspath_removes_paths (fun s => s) "/r" (some "/r")
    ⟨["/r"], ""⟩ "/r" (by decide) (by decide)

/-- Helper for C9: the `sys.path` transformation (remove the removal
list, then prepend the two roots if absent) is idempotent as soon as
neither root is itself in the removal list. -/
theorem clean_insert_idem (rem : List String) (pr dep : String)
    (sp : List String) (hpr : pr ∉ rem) (hdep : dep ∉ rem) :
    insertIfAbsent dep (insertIfAbsent pr (removePaths rem
        (insertIfAbsent dep (insertIfAbsent pr (removePaths rem sp)))))
      = insertIfAbsent dep (insertIfAbsent pr (removePaths rem sp)) := by
  have hall : ∀ q ∈ insertIfAbsent dep (insertIfAbsent pr
      (removePaths rem sp)), q ∉ rem := by
    intro q hq
    rcases mem_of_mem_insertIfAbsent _ _ _ hq with h | h2
    · subst h
      exact hdep
    rcases mem_of_mem_insertIfAbsent _ _ _ h2 with h | h3
    · subst h
      exact hpr
    exact mem_removePaths_not_removed _ _ _ h3
  rw [removePaths_eq_self rem _ hall]
  rw [insertIfAbsent_of_mem pr _
    (mem_insertIfAbsent_of_mem _ _ _ (mem_insertIfAbsent_self _ _))]
  rw [insertIfAbsent_of_mem dep _ (mem_insertIfAbsent_self _ _)]

/-- Helper for C9: the `PYTHONPATH` transformation is idempotent when
the resulting entries are fixed points of `abspath` and free of the
path separator (so that joining and re-splitting recovers them). -/
theorem pythonpathDirsAfter_idem (abspath : String → String)
    (package_root : String) (pp : String)
    (hidem : ∀ p ∈ pythonpathDirsAfter abspath package_root pp,
      abspath p = p)
    (hfree : ∀ p ∈ pythonpathDirsAfter abspath package_root pp,
      ':' ∉ p.data) :
    pythonpathDirsAfter abspath package_root
        (pyJoin (pythonpathDirsAfter abspath package_root pp))
      = pythonpathDirsAfter abspath package_root pp := by
  have hsplit : pySplit (pyJoin (pythonpathDirsAfter abspath package_root pp))
      = pythonpathDirsAfter abspath package_root pp :=
    pySplit_pyJoin _ (insertIfAbsent_ne_nil _ _) hfree
  show insertIfAbsent (depRootOf abspath (abspath package_root))
      (insertIfAbsent (abspath package_root)
        ((pySplit (pyJoin (pythonpathDirsAfter abspath package_root pp))).map
          abspath))
    = pythonpathDirsAfter abspath package_root pp
  rw [hsplit, map_eq_self_of abspath _ hidem]
  rw [insertIfAbsent_of_mem (abspath package_root)
    (pythonpathDirsAfter abspath package_root pp)
    (mem_insertIfAbsent_of_mem (depRootOf abspath (abspath package_root))
      (abspath package_root)
      (insertIfAbsent (abspath package_root) ((pySplit pp).map abspath))
      (mem_insertIfAbsent_self (abspath package_root)
        ((pySplit pp).map abspath)))]
  rw [insertIfAbsent_of_mem (depRootOf abspath (abspath package_root))
    (pythonpathDirsAfter abspath package_root pp)
    (mem_insertIfAbsent_self (depRootOf abspath (abspath package_root))
      (insertIfAbsent (abspath package_root) ((pySplit pp).map abspath)))]

/-- C9 counterexample: `setup_syspath` is not idempotent.  When
`current_dir` normalizes to the package root itself (a directory the
function first removes and then re-adds), the second call removes the
package root again and prepends it in front of the dependency root, so
the two roots swap places in `sys.path`. -/
theorem setup_syspath_not_idempotent :
    setup_syspath (fun s => s) "/r" (some "/r")
        (setup_syspath (fun s => s) "/r" (some "/r") ⟨[], ""⟩)
      ≠ setup_syspath (fun s => s) "/r" (some "/r") ⟨[], ""⟩ := by
  decide

/-- C9 (amended): `setup_syspath` is idempotent provided the normalized
`current_dir` is neither the package root nor the dependency root,
neither root is the empty string or `'.'`, and the `PYTHONPATH` entries
produced by the first call are fixed points of `abspath` and free of
the path separator. -/
theorem setup_syspath_idempotent (abspath : String → String)
    (package_root : String) (current_dir : Option String) (st : SysState)
    (hpr1 : abspath package_root ≠ "") (hpr2 : abspath package_root ≠ ".")
    (hdep1 : depRootOf abspath (abspath package_root) ≠ "")
    (hdep2 : depRootOf abspath (abspath package_root) ≠ ".")
    (hcur : ∀ c ∈ current_dir,
      abspath c ≠ abspath package_root
        ∧ abspath c ≠ depRootOf abspath (abspath package_root))
    (hidem : ∀ p ∈ pythonpathDirsAfter abspath package_root st.pythonpath,
      abspath p = p)
    (hfree : ∀ p ∈ pythonpathDirsAfter abspath package_root st.pythonpath,
      ':' ∉ p.data) :
    setup_syspath abspath package_root current_dir
        (setup_syspath abspath package_root current_dir st)
      = setup_syspath abspath package_root current_dir st := by
  have hprrem : abspath package_root ∉ removingDirs abspath current_dir := by
    cases current_dir with
    | none =>
      intro hm
      simp [removingDirs] at hm
      rcases hm with h | h
      · exact hpr1 h
      · exact hpr2 h
    | some c =>
      intro hm
      simp [removingDirs] at hm
      rcases hm with h | h | h
      · exact hpr1 h
      · exact hpr2 h
      · exact (hcur c (by simp [Option.mem_def])).1 h.symm
  have hdeprem : depRootOf abspath (abspath package_root)
      ∉ removingDirs abspath current_dir := by
    cases current_dir with
    | none =>
      intro hm
      simp [removingDirs] at hm
      rcases hm with h | h
      · exact hdep1 h
      · exact hdep2 h
    | some c =>
      intro hm
      simp [removingDirs] at hm
      rcases hm with h | h | h
      · exact hdep1 h
      · exact hdep2 h
      · exact (hcur c (by simp [Option.mem_def])).2 h.symm
  have hmk1 : setup_syspath abspath package_root current_dir
      (setup_syspath abspath package_root current_dir st)
      = SysState.mk
        (syspathAfter abspath package_root current_dir
          (syspathAfter abspath package_root current_dir st.syspath))
        (pyJoin (pythonpathDirsAfter abspath package_root
          (pyJoin (pythonpathDirsAfter abspath package_root
            st.pythonpath)))) := rfl
  have hmk2 : setup_syspath abspath package_root current_dir st
      = SysState.mk (syspathAfter abspath package_root current_dir st.syspath)
        (pyJoin (pythonpathDirsAfter abspath package_root st.pythonpath)) :=
    rfl
  rw [hmk1, hmk2, SysState.mk.injEq]
  constructor
  · exact clean_insert_idem (removingDirs abspath current_dir)
      (abspath package_root) (depRootOf abspath (abspath package_root))
      st.syspath hprrem hdeprem
  · rw [pythonpathDirsAfter_idem abspath package_root st.pythonpath
      hidem hfree]

theorem draw_chars_length (with_replacement : Bool) (rand : Nat → Nat)
    (pool : List Char) (count : Nat) :
    (draw_chars with_replacement rand pool count).length = count := by
  induction count generalizing rand pool with
  | zero => rfl
  | succ m ih => simp [draw_chars, ih]

theorem chunk_rows_nil (columns : Nat) : chunk_rows columns [] = [] := by
  unfold chunk_rows
  simp

theorem chunk_rows_step (columns : Nat) (l : List RenderedGlyph)
    (hc : 0 < columns) (hl : l ≠ []) :
    chunk_rows columns l
      = l.take columns :: chunk_rows columns (l.drop columns) := by
  conv_lhs => unfold chunk_rows
  rw [dif_neg (not_or.mpr ⟨by omega, hl⟩)]

theorem chunk_rows_length (columns : Nat) (hc : 0 < columns) :
    ∀ (n : Nat) (l : List RenderedGlyph), l.length ≤ n →
      (chunk_rows columns l).length
        = (l.length + columns - 1) / columns := by
  intro n
  induction n with
  | zero =>
    intro l hl
    have hnil : l = [] := List.eq_nil_of_length_eq_zero (Nat.le_zero.mp hl)
    subst hnil
    rw [chunk_rows_nil]
    simp only [List.length_nil, List.length]
    exact (Nat.div_eq_of_lt (by omega)).symm
  | succ m ih =>
    intro l hl
    by_cases hnil : l = []
    · subst hnil
      rw [chunk_rows_nil]
      simp only [List.length_nil, List.length]
      exact (Nat.div_eq_of_lt (by omega)).symm
    · rw [chunk_rows_step columns l hc hnil]
      simp only [List.length_cons]
      rw [ih (l.drop columns) (by rw [List.length_drop]; omega)]
      rw [List.length_drop]
      have hpos : 0 < l.length := List.length_pos.mpr hnil
      rcases Nat.lt_or_ge l.length columns with hlt | hge
      · have e1 : l.length - columns + columns - 1 = columns - 1 := by omega
        have e2 : l.length + columns - 1 = (l.length - 1) + columns := by
          omega
        rw [e1, e2, Nat.add_div_right _ hc]
        have e3 : (columns - 1) / columns = 0 := Nat.div_eq_of_lt (by omega)
        have e4 : (l.length - 1) / columns = 0 := Nat.div_eq_of_lt (by omega)
        omega
      · have e1 : l.length - columns + columns - 1 = l.length - 1 := by omega
        have e2 : l.length + columns - 1 = (l.length - 1) + columns := by
          omega
        rw [e1, e2, Nat.add_div_right _ hc]

/-- C5: for every seeded `PickRequest`, two invocations of the
Character Picker with the same pool, count, and seed yield identical
character sequences regardless of the non-deterministic entropy source,
and therefore the composed final images are byte-identical given
identical styles. -/
theorem pick_seeded_deterministic (req : PickRequest) (s : Nat)
    (hs : req.seed = some s) (e1 e2 : Nat → Nat) (style : RenderStyle) :
    pick_chars req e1 = pick_chars req e2
      ∧ ∀ l1 l2, pick_chars req e1 = .ok l1 → pick_chars req e2 = .ok l2 →
          compose_image l1 style = compose_image l2 style := by
  have h1 : pick_chars req e1 = pick_chars req e2 := by
    unfold pick_chars
    rw [hs]
  refine ⟨h1, ?_⟩
  intro l1 l2 hl1 hl2
  rw [hl1, hl2] at h1
  injection h1 with h
  rw [h]

/-- Witness for C5 at a concrete request: pool `['A','B','C']`,
count 2, seed 42 gives the same result under two different entropy
sources. -/
theorem pick_seeded_deterministic_witness :
    pick_chars ⟨['A', 'B', 'C'], 2, some 42, false⟩ (fun _ => 0)
      = pick_chars ⟨['A', 'B', 'C'], 2, some 42, false⟩ (fun _ => 7) :=
  (pick_seeded_deterministic ⟨['A', 'B', 'C'], 2, some 42, false⟩ 42 rfl
    (fun _ => 0) (fun _ => 7) ⟨32, 1, 0, 0, 0, 0, 4⟩).1

/-- C6: for every `PickRequest` whose count exceeds the pool size
(pool non-empty, per the `CharacterPool` invariant): without
replacement the Character Picker fails with `InsufficientPoolError`;
with replacement explicitly enabled it succeeds with a sequence of the
requested length; and such a sequence may contain duplicate characters,
as the concrete run on pool `['A']` with count 2 shows. -/
theorem pick_count_exceeds_pool (req : PickRequest) (entropy : Nat → Nat)
    (hpool : req.pool ≠ []) (hcount : req.pool.length < req.count) :
    (req.with_replacement = false →
        pick_chars req entropy = .error .insufficientPool)
      ∧ (req.with_replacement = true →
          ∃ l, pick_chars req entropy = .ok l ∧ l.length = req.count)
      ∧ ∃ l, pick_chars ⟨['A'], 2, none, true⟩ (fun _ => 0) = .ok l
          ∧ ¬l.Nodup := by
  refine ⟨?_, ?_, ?_⟩
  · intro hwr
    unfold pick_chars
    rw [if_neg hpool, if_pos ⟨hwr, hcount⟩]
  · intro hwr
    have hcond : ¬(req.with_replacement = false
        ∧ req.pool.length < req.count) := by
      intro hand
      rw [hwr] at hand
      exact Bool.noConfusion hand.1
    refine ⟨draw_chars req.with_replacement
      (match req.seed with
        | some s => lcg_stream s
        | none => entropy) req.pool req.count, ?_, ?_⟩
    · unfold pick_chars
      rw [if_neg hpool, if_neg hcond]
    · exact draw_chars_length _ _ _ _
  · exact ⟨['A', 'A'], rfl, by decide⟩

/-- Witness for C6 at a concrete request: pool `['A','B']`, count 3,
without replacement, fails with `InsufficientPoolError`. -/
theorem pick_count_exceeds_pool_witness :
    pick_chars ⟨['A', 'B'], 3, some 0, false⟩ (fun _ => 0)
      = .error .insufficientPool :=
  (pick_count_exceeds_pool ⟨['A', 'B'], 3, some 0, false⟩ (fun _ => 0)
    (by decide) (by decide)).1 rfl

/-- C7: the Image Composer fails with `EmptyBatchError` on an empty
glyph sequence (in every layout mode and for every padding), and for
every non-empty sequence of N glyphs composed in `grid` mode with
column count C > 0 it produces a grid of ceil(N/C) rows (in natural
numbers, `(N + C - 1) / C`). -/
theorem compose_empty_and_grid_rows (glyphs : List RenderedGlyph)
    (columns padding_px : Nat) (mode : LayoutMode)
    (hg : glyphs ≠ []) (hc : 0 < columns) :
    compose_glyphs [] mode padding_px = .error .emptyBatch
      ∧ ∃ img, compose_glyphs glyphs (.grid columns) padding_px = .ok img
          ∧ img.rows.length = (glyphs.length + columns - 1) / columns := by
  constructor
  · rfl
  · refine ⟨⟨chunk_rows columns glyphs, glyphs.map RenderedGlyph.char,
      ((chunk_rows columns glyphs).map List.length).foldr max 0
          * cell_width glyphs
        + (((chunk_rows columns glyphs).map List.length).foldr max 0 - 1)
          * padding_px,
      (chunk_rows columns glyphs).length * cell_height glyphs
        + ((chunk_rows columns glyphs).length - 1) * padding_px⟩, ?_, ?_⟩
    · unfold compose_glyphs
      rw [if_neg hg]
      rfl
    · exact chunk_rows_length columns hc glyphs.length glyphs
        (Nat.le_refl _)

/-- Witness for C7 at a concrete batch: three glyphs in a 2-column grid
fail on the empty batch and produce ceil(3/2) = 2 rows; here the first
(empty-batch) component is extracted. -/
theorem compose_empty_and_grid_rows_witness :
    compose_glyphs [] .single 1 = .error .emptyBatch :=
  (compose_empty_and_grid_rows
    [⟨'A', 3, 4⟩, ⟨'B', 2, 5⟩, ⟨'C', 1, 1⟩] 2 1 .single
    (by decide) (by decide)).1

/-- Witness for C9 (amended) at a concrete state: with
`current_dir = "/c"`, distinct from both roots, a second call on the
empty initial state changes nothing. -/
theorem setup_syspath_idempotent_witness :
    setup_syspath (fun s => s) "/r" (some "/c")
        (setup_syspath (fun s => s) "/r" (some "/c") ⟨[], ""⟩)
      = setup_syspath (fun s => s) "/r" (some "/c") ⟨[], ""⟩ :=
  setup_syspath_idempotent (fun s => s) "/r" (some "/c") ⟨[], ""⟩
    (by decide) (by decide) (by decide) (by decide)
    (fun c hc => by
      rw [Option.mem_def] at hc
      injection hc with h
      subst h
      exact ⟨by decide, by decide⟩)
    (by decide) (by decide)

end AoikPickChar
